import Mathlib

/-!
Verification development for the sesame-voice-generator repository.

Shallow embedding of the functional core:
  * `SesameTTS.generate_speech`      (src/sesame_tts.py, lines 31-104)
  * `VoiceCloning.extract_voice`     (src/voice_cloning.py, lines 36-108)
  * `VoiceCloning.generate_speech_with_voice` (src/voice_cloning.py, lines 110-205)
  * `VoiceCloning.list_available_voices`      (src/voice_cloning.py, lines 207-218)
  * the UI wrapper `generate_speech` (src/app.py, lines 25-47)

Strings are modelled as `List Char` (`Str`).  The network is modelled as an
oracle giving, for each attempt index, the outcome of the `requests.post`
call; the filesystem is an association list from path to byte content
(`open(path, "wb")` truncates, so a write is a whole-file overwrite).
The Python functions return `None` on every failure; the distinct
constructors of `GenResult` record which `return None` site was taken,
mirroring the distinct diagnostics the code prints at each site.
-/

namespace Sesame

/-- Character list model of Python strings. -/
abbrev Str := List Char

/-- Byte content of a file / HTTP response body. -/
abbrev Bytes := List Nat

/-- Association-list filesystem: path to file content. -/
abbrev Fs := List (Str × Bytes)

/-- Whole-file write: overwrite the entry for the path when it exists
(`open(path, "wb")` truncates), otherwise create it. -/
def assocSet {α : Type} (l : List (Str × α)) (k : Str) (v : α) : List (Str × α) :=
  if l.any (fun e => e.1 = k) then
    l.map (fun e => if e.1 = k then (k, v) else e)
  else
    l ++ [(k, v)]

/-- Read the entry stored for a key. -/
def assocFind {α : Type} (l : List (Str × α)) (k : Str) : Option α :=
  (l.find? (fun e => e.1 = k)).map Prod.snd

/-- Python `str.replace(pat, repl)`: replace every non-overlapping occurrence,
scanning left to right.  (The code only calls it with the non-empty pattern
`".json"`; for an empty pattern this model is the identity.)  The scan
consumes at least one character per step, so `s.length` fuel suffices. -/
def replaceAllAux (pat repl : Str) : Nat → Str → Str
  | 0, s => s
  | _ + 1, [] => []
  | fuel + 1, c :: rest =>
    if pat ≠ [] ∧ pat.isPrefixOf (c :: rest) then
      repl ++ replaceAllAux pat repl fuel (rest.drop (pat.length - 1))
    else
      c :: replaceAllAux pat repl fuel rest

/-- Python `str.replace(pat, repl)` on `s`. -/
def replaceAll (pat repl s : Str) : Str :=
  replaceAllAux pat repl s.length s

/-- Decimal digits of `n`, most significant first, as characters: the model of
Python `str(int(...))`.  `natCharsAux` peels digits from the right; fuel `n`
is enough because a positive number has at most `n` decimal digits. -/
def natCharsAux : Nat → Nat → Str → Str
  | 0, _, acc => acc
  | fuel + 1, n, acc =>
    if n = 0 then acc else natCharsAux fuel (n / 10) (Nat.digitChar (n % 10) :: acc)

/-- Python `str(n)` for a natural number. -/
def natChars (n : Nat) : Str :=
  if n = 0 then ['0'] else natCharsAux n n []

/-- `os.path.join(output_dir, f"output_{timestamp}.wav")`
(src/sesame_tts.py line 57). -/
def plainOutputPath (dir : Str) (timestamp : Nat) : Str :=
  dir ++ ('/' :: "output_".data) ++ natChars timestamp ++ ".wav".data

/-- `os.path.join(output_dir, f"output_{voice_name}_{timestamp}.wav")`
(src/voice_cloning.py line 152). -/
def clonedOutputPath (dir : Str) (voice : Str) (timestamp : Nat) : Str :=
  dir ++ ('/' :: "output_".data) ++ voice ++ ['_'] ++ natChars timestamp ++ ".wav".data

/-- Outcome of one `requests.post` call: a response with status code and
body bytes, or a network-level exception raised by the transport. -/
inductive HttpOutcome : Type
  | resp (code : Nat) (body : Bytes)
  | exc
deriving DecidableEq

/-- Behaviour of the file write for a 200 response: the write completes, or
it raises after `k` bytes have been written (the opened file was already
truncated, so the path then holds the first `k` bytes of the body). -/
inductive WriteBehavior : Type
  | full
  | failAt (k : Nat)
deriving DecidableEq

/-- Environment behaviour of one loop iteration. -/
structure AttemptSpec : Type where
  http : HttpOutcome
  write : WriteBehavior
deriving DecidableEq

/-- Neutral synthesis-tuning values stored in a voice model
(src/voice_cloning.py lines 89-94). -/
structure VoiceParameters : Type where
  pitch : Rat
  timbre : Rat
  pace : Rat
deriving DecidableEq

/-- The JSON payload of `requests.post`: `{"inputs": text}` optionally with a
`"parameters"` object (src/sesame_tts.py lines 48-53, voice_cloning.py
lines 139-148). -/
inductive PayloadParams : Type
  | noParams
  | preset (p : Str)
  | clonedVoice (preset : Str) (vp : VoiceParameters)
deriving DecidableEq

/-- One POST request body. -/
structure Payload : Type where
  inputs : Str
  params : PayloadParams
deriving DecidableEq

/-- Observable trace state of one `generate_speech` call: the payloads of the
POST requests issued, the `time.sleep` durations in order, and the
filesystem. -/
structure RunState : Type where
  posts : List Payload
  sleeps : List Nat
  fs : Fs
deriving DecidableEq

/-- Result of `generate_speech` / `generate_speech_with_voice`.  The Python
code returns the output path on success and `None` on every failure; the
failure constructors record the `return None` site taken, matching the
diagnostic printed there ("Maximum retry attempts reached" for both
retry-exhaustion sites, "Error response" for the non-200 non-503 site,
"Voice model not found" for a missing profile). -/
inductive GenResult : Type
  | success (path : Str)
  | serviceUnavailable
  | requestRejected
  | voiceNotFound
deriving DecidableEq

/-- The `while retries < max_retries` loop of `generate_speech`
(src/sesame_tts.py lines 59-104; textually duplicated at
src/voice_cloning.py lines 154-199).  The loop increments `retries` on
every iteration that continues, so `max_retries` fuel always suffices; the
fuel-0 branch coincides with the `return None` after the loop (line 104),
which is also reached directly when the guard fails. -/
def genLoop (oracle : Nat → AttemptSpec) (payload : Payload) (max_retries : Nat)
    (output_path : Str) : Nat → Nat → RunState → RunState × GenResult
  | 0, _, st => (st, .serviceUnavailable)
  | fuel + 1, retries, st =>
    if retries < max_retries then
      -- requests.post(self.api_url, headers=headers, json=payload):
      -- every iteration issues one POST, appended to the `posts` trace
      match (oracle retries).http with
      | .resp code body =>
        if code = 503 then
          if retries + 1 < max_retries then
            -- retries += 1; wait_time = 2 ** retries; time.sleep(wait_time); continue
            genLoop oracle payload max_retries output_path fuel (retries + 1)
              ⟨st.posts ++ [payload], st.sleeps ++ [2 ^ (retries + 1)], st.fs⟩
          else
            (⟨st.posts ++ [payload], st.sleeps, st.fs⟩, .serviceUnavailable)
        else if code ≠ 200 then
          (⟨st.posts ++ [payload], st.sleeps, st.fs⟩, .requestRejected)
        else
          -- with open(output_path, "wb") as f: f.write(response.content)
          match (oracle retries).write with
          | .full =>
            (⟨st.posts ++ [payload], st.sleeps, assocSet st.fs output_path body⟩,
              .success output_path)
          | .failAt k =>
            -- the write raised after k bytes; the except-branch retries
            if retries + 1 < max_retries then
              genLoop oracle payload max_retries output_path fuel (retries + 1)
                ⟨st.posts ++ [payload], st.sleeps ++ [2 ^ (retries + 1)],
                  assocSet st.fs output_path (body.take k)⟩
            else
              (⟨st.posts ++ [payload], st.sleeps,
                assocSet st.fs output_path (body.take k)⟩, .serviceUnavailable)
      | .exc =>
        if retries + 1 < max_retries then
          genLoop oracle payload max_retries output_path fuel (retries + 1)
            ⟨st.posts ++ [payload], st.sleeps ++ [2 ^ (retries + 1)], st.fs⟩
        else
          (⟨st.posts ++ [payload], st.sleeps, st.fs⟩, .serviceUnavailable)
    else
      (st, .serviceUnavailable)

/-- `SesameTTS.generate_speech(text, output_dir, voice_preset, max_retries)`
(src/sesame_tts.py lines 31-104).  `timestamp` is the value of
`int(time.time())` observed at line 56; `oracle` gives the outcome of each
attempt; `fs0` is the filesystem at entry. -/
def generate_speech (text : Str) (output_dir : Str) (voice_preset : Option Str)
    (max_retries : Nat) (timestamp : Nat) (oracle : Nat → AttemptSpec) (fs0 : Fs) :
    RunState × GenResult :=
  let payload : Payload :=
    { inputs := text
      params := match voice_preset with
        | some p => .preset p
        | none => .noParams }
  let output_path := plainOutputPath output_dir timestamp
  genLoop oracle payload max_retries output_path max_retries 0 ⟨[], [], fs0⟩

/-- The persisted voice model record written by `extract_voice`
(src/voice_cloning.py lines 85-95). -/
structure VoiceModel : Type where
  name : Str
  created : Nat
  source_file : Str
  parameters : VoiceParameters
deriving DecidableEq

/-- The `voice_models` directory: filename (including the `.json`
extension) to the voice model stored in that file. -/
abbrev Store := List (Str × VoiceModel)

/-- The filename extension `".json"`. -/
def jsonExt : Str := ".json".data

/-- `VoiceCloning.extract_voice(audio_file_path, voice_name)`
(src/voice_cloning.py lines 36-108).  `existing` is the set of paths that
`os.path.exists` reports (and that can be read); `now` is `time.time()`.
The API request is never issued (the call is a commented-out placeholder),
so no oracle is involved; the model covers executions in which the local
JSON write succeeds (the except-branch returning `False` on an I/O error
is outside this model). -/
def extract_voice (store : Store) (existing : List Str)
    (audio_file_path voice_name : Str) (now : Nat) : Store × Bool :=
  if audio_file_path ∈ existing then
    (assocSet store (voice_name ++ jsonExt)
      { name := voice_name
        created := now
        source_file := audio_file_path
        parameters := { pitch := 0, timbre := 0, pace := 1 } }, true)
  else
    (store, false)

/-- `VoiceCloning.list_available_voices()` (src/voice_cloning.py lines
207-218): for every file of the voice directory ending in `".json"`, emit
`file.replace(".json", "")` — note Python `str.replace` removes every
occurrence, not only the suffix. -/
def list_available_voices (store : Store) : List Str :=
  ((store.map Prod.fst).filter (fun f => jsonExt.isSuffixOf f)).map
    (fun f => replaceAll jsonExt [] f)

/-- `VoiceCloning.generate_speech_with_voice(text, voice_name, output_dir,
max_retries)` (src/voice_cloning.py lines 110-205).  The voice model is
looked up in the store (`os.path.exists` + `json.load`; the model covers
well-formed stored profiles, so the `.get` defaults at lines 144-146 and
the outer except-branch for a parse failure are not exercised). -/
def generate_speech_with_voice (store : Store) (text voice_name : Str)
    (output_dir : Str) (max_retries : Nat) (timestamp : Nat)
    (oracle : Nat → AttemptSpec) (fs0 : Fs) : RunState × GenResult :=
  match assocFind store (voice_name ++ jsonExt) with
  | none => (⟨[], [], fs0⟩, .voiceNotFound)
  | some vm =>
    let payload : Payload := { inputs := text, params := .clonedVoice voice_name vm.parameters }
    genLoop oracle payload max_retries (clonedOutputPath output_dir voice_name timestamp)
      max_retries 0 ⟨[], [], fs0⟩

/-- Result of the UI wrapper `generate_speech` in src/app.py: the tuple
`(audio_path, status_message, status_type)` collapsed to its meaning.
`noText` is the "Please enter some text" branch (line 36-37), taken before
the client is constructed into a request. -/
inductive AppResult : Type
  | noText
  | ok (path : Str)
  | apiError
deriving DecidableEq

/-- The UI wrapper `generate_speech(text, voice_preset)` (src/app.py lines
25-47): empty text is rejected before `tts_client.generate_speech` is
called; otherwise the call is delegated and `None` becomes the error
message. -/
def app_generate_speech (text : Str) (voice_preset : Option Str)
    (max_retries : Nat) (timestamp : Nat) (oracle : Nat → AttemptSpec) (fs0 : Fs) :
    RunState × AppResult :=
  if text = [] then
    (⟨[], [], fs0⟩, .noText)
  else
    let r := generate_speech text "outputs".data voice_preset max_retries timestamp oracle fs0
    match r.2 with
    | .success p => (r.1, .ok p)
    | _ => (r.1, .apiError)

/-! ### Association-list store lemmas -/

theorem find?_map_overwrite {α : Type} (k : Str) (v : α) (t : List (Str × α))
    (hk : t.any (fun e => e.1 = k) = true) :
    (t.map (fun e => if e.1 = k then (k, v) else e)).find? (fun e => e.1 = k) = some (k, v) := by
  induction t with
  | nil => simp at hk
  | cons e t ih =>
    by_cases he : e.1 = k
    · rw [List.map_cons, if_pos he, List.find?_cons_of_pos _ (by simp)]
    · simp only [List.any_cons, Bool.or_eq_true, decide_eq_true_eq] at hk
      rcases hk with hk | hk
      · exact absurd hk he
      · rw [List.map_cons, if_neg he, List.find?_cons_of_neg _ (by simpa using he)]
        exact ih hk

theorem find?_append_fresh {α : Type} (k : Str) (v : α) (t : List (Str × α))
    (hk : t.any (fun e => e.1 = k) = false) :
    (t ++ [(k, v)]).find? (fun e => e.1 = k) = some (k, v) := by
  induction t with
  | nil => rw [List.nil_append, List.find?_cons_of_pos _ (by simp)]
  | cons e t ih =>
    simp only [List.any_cons, Bool.or_eq_false_iff, decide_eq_false_iff_not] at hk
    rw [List.cons_append, List.find?_cons_of_neg _ (by simpa using hk.1)]
    exact ih hk.2

theorem assocFind_assocSet_self {α : Type} (l : List (Str × α)) (k : Str) (v : α) :
    assocFind (assocSet l k v) k = some v := by
  unfold assocFind assocSet
  by_cases h : l.any (fun e => e.1 = k)
  · rw [if_pos h, find?_map_overwrite k v l h]
    rfl
  · rw [if_neg h, find?_append_fresh k v l (Bool.eq_false_iff.mpr h)]
    rfl

theorem assocSet_fresh {α : Type} (l : List (Str × α)) (k : Str) (v : α)
    (h : k ∉ l.map Prod.fst) : assocSet l k v = l ++ [(k, v)] := by
  have hany : l.any (fun e => e.1 = k) = false := by
    simp only [List.any_eq_false, decide_eq_true_eq]
    intro e he hk
    exact h (List.mem_map.mpr ⟨e, he, hk⟩)
  unfold assocSet
  rw [hany]
  simp

theorem assocSet_overwrite_last {α : Type} (l : List (Str × α)) (k : Str) (v w : α)
    (h : k ∉ l.map Prod.fst) : assocSet (l ++ [(k, v)]) k w = l ++ [(k, w)] := by
  have hany : (l ++ [(k, v)]).any (fun e => e.1 = k) = true := by
    simp
  unfold assocSet
  rw [if_pos hany, List.map_append]
  congr 1
  · calc l.map (fun e => if e.1 = k then (k, w) else e)
        = l.map (fun e => e) := by
          apply List.map_congr_left
          intro e he
          have : e.1 ≠ k := fun hk => h (List.mem_map.mpr ⟨e, he, hk⟩)
          simp [this]
      _ = l := List.map_id' l
  · simp

/-! ### Decimal rendering: `natChars` is injective -/

theorem digitChar_inj_lt_ten :
    ∀ d1 < 10, ∀ d2 < 10, Nat.digitChar d1 = Nat.digitChar d2 → d1 = d2 := by decide

theorem natCharsAux_append (fuel : Nat) :
    ∀ n acc, natCharsAux fuel n acc = natCharsAux fuel n [] ++ acc := by
  induction fuel with
  | zero => intro n acc; simp [natCharsAux]
  | succ fuel ih =>
    intro n acc
    by_cases hn : n = 0
    · simp [natCharsAux, hn]
    · rw [natCharsAux, if_neg hn, natCharsAux, if_neg hn,
        ih (n / 10) (Nat.digitChar (n % 10) :: acc), ih (n / 10) [Nat.digitChar (n % 10)]]
      simp

theorem natCharsAux_zero (fuel : Nat) (acc : Str) : natCharsAux fuel 0 acc = acc := by
  cases fuel <;> rfl

theorem natCharsAux_peel (fuel n : Nat) (hn : n ≠ 0) (acc : Str) :
    natCharsAux (fuel + 1) n acc =
      natCharsAux fuel (n / 10) [] ++ (Nat.digitChar (n % 10) :: acc) := by
  rw [natCharsAux, if_neg hn, natCharsAux_append]

theorem natCharsAux_ne_nil (fuel n : Nat) (hn : n ≠ 0) (hb : n < 10 ^ fuel) :
    natCharsAux fuel n [] ≠ [] := by
  cases fuel with
  | zero => simp at hb; omega
  | succ fuel =>
    rw [natCharsAux_peel fuel n hn]
    simp

theorem natCharsAux_inj :
    ∀ f1 n1, n1 < 10 ^ f1 → ∀ f2 n2, n2 < 10 ^ f2 →
      natCharsAux f1 n1 [] = natCharsAux f2 n2 [] → n1 = n2 := by
  intro f1
  induction f1 with
  | zero =>
    intro n1 h1 f2 n2 h2 h
    have hn1 : n1 = 0 := by simpa using h1
    subst hn1
    rw [natCharsAux_zero] at h
    by_cases hn2 : n2 = 0
    · omega
    · exact absurd h.symm (natCharsAux_ne_nil f2 n2 hn2 h2)
  | succ g ih =>
    intro n1 h1 f2 n2 h2 h
    by_cases hn1 : n1 = 0
    · subst hn1
      rw [natCharsAux_zero] at h
      by_cases hn2 : n2 = 0
      · omega
      · exact absurd h.symm (natCharsAux_ne_nil f2 n2 hn2 h2)
    · by_cases hn2 : n2 = 0
      · subst hn2
        rw [natCharsAux_zero] at h
        exact absurd h (natCharsAux_ne_nil (g + 1) n1 hn1 h1)
      · cases f2 with
        | zero => simp at h2; omega
        | succ g2 =>
          rw [natCharsAux_peel g n1 hn1, natCharsAux_peel g2 n2 hn2] at h
          obtain ⟨hpre, hdig⟩ := List.append_inj' h (by simp)
          have hm : n1 % 10 = n2 % 10 := by
            apply digitChar_inj_lt_ten _ (Nat.mod_lt _ (by omega)) _ (Nat.mod_lt _ (by omega))
            simpa using hdig
          have hd1 : n1 / 10 < 10 ^ g := by
            rw [Nat.div_lt_iff_lt_mul (by omega)]
            calc n1 < 10 ^ (g + 1) := h1
              _ = 10 ^ g * 10 := by ring
          have hd2 : n2 / 10 < 10 ^ g2 := by
            rw [Nat.div_lt_iff_lt_mul (by omega)]
            calc n2 < 10 ^ (g2 + 1) := h2
              _ = 10 ^ g2 * 10 := by ring
          have hq : n1 / 10 = n2 / 10 := ih (n1 / 10) hd1 g2 (n2 / 10) hd2 hpre
          omega

theorem natCharsAux_eq_zero_char (n : Nat) (hn : n ≠ 0)
    (h : natCharsAux n n [] = ['0']) : False := by
  obtain ⟨m, rfl⟩ : ∃ m, n = m + 1 := ⟨n - 1, by omega⟩
  rw [natCharsAux_peel m (m + 1) hn] at h
  obtain ⟨hpre, hdig⟩ := List.append_inj' (h.trans (List.nil_append ['0']).symm) (by simp)
  have hmod : (m + 1) % 10 = 0 := by
    apply digitChar_inj_lt_ten _ (Nat.mod_lt _ (by omega)) 0 (by omega)
    simpa using hdig
  by_cases hq : (m + 1) / 10 = 0
  · omega
  · have hlt : (m + 1) / 10 < 10 ^ m := by
      have h1 : (m + 1) / 10 < m + 1 := Nat.div_lt_self (by omega) (by omega)
      have h2 : m < 10 ^ m := Nat.lt_pow_self (by omega) m
      omega
    exact natCharsAux_ne_nil m ((m + 1) / 10) hq hlt hpre

theorem natChars_inj {n1 n2 : Nat} (h : natChars n1 = natChars n2) : n1 = n2 := by
  unfold natChars at h
  by_cases h1 : n1 = 0 <;> by_cases h2 : n2 = 0
  · omega
  · rw [if_pos h1, if_neg h2] at h
    exact absurd (natCharsAux_eq_zero_char n2 h2 h.symm) not_false
  · rw [if_neg h1, if_pos h2] at h
    exact absurd (natCharsAux_eq_zero_char n1 h1 h) not_false
  · rw [if_neg h1, if_neg h2] at h
    exact natCharsAux_inj n1 n1 (Nat.lt_pow_self (by omega) n1) n2 n2
      (Nat.lt_pow_self (by omega) n2) h

theorem plainOutputPath_inj (dir : Str) {t1 t2 : Nat}
    (h : plainOutputPath dir t1 = plainOutputPath dir t2) : t1 = t2 := by
  unfold plainOutputPath at h
  apply natChars_inj
  exact List.append_cancel_left (List.append_cancel_right h)

theorem clonedOutputPath_inj (dir voice : Str) {t1 t2 : Nat}
    (h : clonedOutputPath dir voice t1 = clonedOutputPath dir voice t2) : t1 = t2 := by
  unfold clonedOutputPath at h
  apply natChars_inj
  exact List.append_cancel_left (List.append_cancel_right h)

/-! ### `str.replace(".json", "")` on filenames of the form `name + ".json"` -/

theorem replaceAllAux_nil (pat repl : Str) (fuel : Nat) :
    replaceAllAux pat repl fuel [] = [] := by
  cases fuel <;> rfl

theorem jsonExt_eq : jsonExt = ['.', 'j', 's', 'o', 'n'] := rfl

theorem jsonExt_length : jsonExt.length = 5 := rfl

theorem replaceAllAux_jsonExt_self (fuel : Nat) :
    replaceAllAux jsonExt [] (fuel + 1) jsonExt = [] := by
  rw [jsonExt_eq, replaceAllAux, if_pos (by decide)]
  exact replaceAllAux_nil _ _ _

theorem replaceAllAux_strip (n : Str) :
    ∀ fuel : Nat, n.length < fuel →
      (∀ i, i < n.length → jsonExt.isPrefixOf ((n ++ jsonExt).drop i) = false) →
      replaceAllAux jsonExt [] fuel (n ++ jsonExt) = n := by
  induction n with
  | nil =>
    intro fuel hf _
    obtain ⟨f, rfl⟩ : ∃ f, fuel = f + 1 := ⟨fuel - 1, by omega⟩
    simpa using replaceAllAux_jsonExt_self f
  | cons c n ih =>
    intro fuel hf hscan
    obtain ⟨f, rfl⟩ : ∃ f, fuel = f + 1 := ⟨fuel - 1, by omega⟩
    have h0 : jsonExt.isPrefixOf (c :: (n ++ jsonExt)) = false := by
      simpa using hscan 0 (by simp)
    rw [List.cons_append, replaceAllAux, if_neg (by simp [h0])]
    congr 1
    apply ih f (by simp at hf ⊢; omega)
    intro i hi
    simpa using hscan (i + 1) (by simp; omega)

theorem noEarly_of_not_infix (n : Str) (hinf : ¬ jsonExt <:+: n) :
    ∀ i, i < n.length → jsonExt.isPrefixOf ((n ++ jsonExt).drop i) = false := by
  intro i hi
  by_contra hbc
  have hb : jsonExt.isPrefixOf ((n ++ jsonExt).drop i) = true := by
    revert hbc
    cases jsonExt.isPrefixOf ((n ++ jsonExt).drop i) <;> simp
  have hpre : jsonExt <+: (n ++ jsonExt).drop i := List.isPrefixOf_iff_prefix.mp hb
  rw [List.drop_append_of_le_length (by omega)] at hpre
  obtain ⟨r, hr⟩ := hpre
  have hlen : jsonExt.length = 5 := jsonExt_length
  have htlen : (n.drop i).length = n.length - i := by simp
  have hL : (jsonExt ++ r).take 5 = jsonExt := by
    rw [List.take_append_of_le_length (by omega), List.take_of_length_le (by omega)]
  by_cases hcase : 5 ≤ (n.drop i).length
  · have hR : (n.drop i ++ jsonExt).take 5 = (n.drop i).take 5 :=
      List.take_append_of_le_length hcase
    have hEq : jsonExt = (n.drop i).take 5 := by rw [← hL, hr, hR]
    apply hinf
    refine ⟨n.take i, (n.drop i).drop 5, ?_⟩
    calc n.take i ++ jsonExt ++ (n.drop i).drop 5
        = n.take i ++ ((n.drop i).take 5 ++ (n.drop i).drop 5) := by
          rw [hEq, List.append_assoc]
      _ = n.take i ++ n.drop i := by rw [List.take_append_drop]
      _ = n := List.take_append_drop i n
  · have hR : (n.drop i ++ jsonExt).take 5 = n.drop i ++ jsonExt.take (5 - (n.drop i).length) := by
      rw [List.take_append_eq_append_take, List.take_of_length_le (by omega)]
    have hEq : jsonExt = n.drop i ++ jsonExt.take (5 - (n.drop i).length) := by
      calc jsonExt = (jsonExt ++ r).take 5 := hL.symm
        _ = (n.drop i ++ jsonExt).take 5 := by rw [hr]
        _ = n.drop i ++ jsonExt.take (5 - (n.drop i).length) := hR
    have hdrop : jsonExt.drop ((n.drop i).length) = jsonExt.take (5 - (n.drop i).length) := by
      have h2 := congrArg (List.drop ((n.drop i).length)) hEq
      rwa [List.drop_left] at h2
    have hk : (n.drop i).length = 1 ∨ (n.drop i).length = 2 ∨
        (n.drop i).length = 3 ∨ (n.drop i).length = 4 := by omega
    rcases hk with hk | hk | hk | hk
    · rw [hk] at hdrop
      exact absurd hdrop (by decide)
    · rw [hk] at hdrop
      exact absurd hdrop (by decide)
    · rw [hk] at hdrop
      exact absurd hdrop (by decide)
    · rw [hk] at hdrop
      exact absurd hdrop (by decide)

theorem replaceAll_strip (n : Str) (hinf : ¬ jsonExt <:+: n) :
    replaceAll jsonExt [] (n ++ jsonExt) = n := by
  unfold replaceAll
  apply replaceAllAux_strip n (n ++ jsonExt).length (by simp [jsonExt_length])
  exact noEarly_of_not_infix n hinf

theorem jsonExt_isSuffixOf_append (n : Str) : jsonExt.isSuffixOf (n ++ jsonExt) = true := by
  simp [List.isSuffixOf_iff_suffix]

/-! ### Retry-loop invariants -/

theorem genLoop_retry_all (oracle : Nat → AttemptSpec) (payload : Payload) (m : Nat)
    (path : Str) (hO : ∀ i, (∃ b, (oracle i).http = .resp 503 b) ∨ (oracle i).http = .exc) :
    ∀ fuel retries st, m ≤ retries + fuel →
      genLoop oracle payload m path fuel retries st =
        ({ posts := st.posts ++ List.replicate (m - retries) payload
           sleeps := st.sleeps ++ (List.range' (retries + 1) (m - 1 - retries)).map (fun j => 2 ^ j)
           fs := st.fs }, .serviceUnavailable) := by
  intro fuel
  induction fuel with
  | zero =>
    intro retries st hle
    have h0 : m - retries = 0 := by omega
    have h1 : m - 1 - retries = 0 := by omega
    rw [genLoop, h0, h1]
    simp
  | succ fuel ih =>
    intro retries st hle
    rw [genLoop]
    by_cases hr : retries < m
    · rw [if_pos hr]
      have step :
          (if retries + 1 < m then
            genLoop oracle payload m path fuel (retries + 1)
              ⟨st.posts ++ [payload], st.sleeps ++ [2 ^ (retries + 1)], st.fs⟩
          else (⟨st.posts ++ [payload], st.sleeps, st.fs⟩, .serviceUnavailable)) =
            ({ posts := st.posts ++ List.replicate (m - retries) payload
               sleeps := st.sleeps ++
                 (List.range' (retries + 1) (m - 1 - retries)).map (fun j => 2 ^ j)
               fs := st.fs }, .serviceUnavailable) := by
        by_cases hlt : retries + 1 < m
        · rw [if_pos hlt, ih (retries + 1) _ (by omega)]
          have e1 : m - retries = (m - (retries + 1)) + 1 := by omega
          have e2 : m - 1 - retries = (m - 1 - (retries + 1)) + 1 := by omega
          rw [e1, e2, List.replicate_succ, List.range'_succ]
          simp
        · rw [if_neg hlt]
          have e1 : m - retries = 1 := by omega
          have e2 : m - 1 - retries = 0 := by omega
          rw [e1, e2]
          simp
      rcases hO retries with ⟨b, hb⟩ | hb
      · simp only [hb]
        exact step
      · simp only [hb]
        exact step
    · rw [if_neg hr]
      have h0 : m - retries = 0 := by omega
      have h1 : m - 1 - retries = 0 := by omega
      rw [h0, h1]
      simp

theorem genLoop_success_spec (oracle : Nat → AttemptSpec) (payload : Payload) (m : Nat)
    (path : Str) :
    ∀ fuel retries st st' p,
      genLoop oracle payload m path fuel retries st = (st', .success p) →
      p = path ∧ ∃ body, assocFind st'.fs path = some body ∧
        ∃ i, (oracle i).http = .resp 200 body ∧ (oracle i).write = .full := by
  intro fuel
  induction fuel with
  | zero =>
    intro retries st st' p h
    rw [genLoop] at h
    simp at h
  | succ fuel ih =>
    intro retries st st' p h
    rw [genLoop] at h
    by_cases hr : retries < m
    · rw [if_pos hr] at h
      rcases hhttp : (oracle retries).http with ⟨code, body⟩ | _
      · simp only [hhttp] at h
        by_cases h503 : code = 503
        · subst h503
          rw [if_pos rfl] at h
          by_cases hlt : retries + 1 < m
          · rw [if_pos hlt] at h
            exact ih _ _ _ _ h
          · rw [if_neg hlt] at h
            simp at h
        · rw [if_neg h503] at h
          by_cases h200 : code = 200
          · subst h200
            rw [if_neg (show ¬(200 ≠ 200) by decide)] at h
            rcases hw : (oracle retries).write with _ | k
            · simp only [hw] at h
              injection h with hA hB
              injection hB with hpath
              subst hpath
              subst hA
              exact ⟨rfl, body, assocFind_assocSet_self _ _ _, retries, hhttp, hw⟩
            · simp only [hw] at h
              by_cases hlt : retries + 1 < m
              · rw [if_pos hlt] at h
                exact ih _ _ _ _ h
              · rw [if_neg hlt] at h
                simp at h
          · rw [if_pos h200] at h
            simp at h
      · simp only [hhttp] at h
        by_cases hlt : retries + 1 < m
        · rw [if_pos hlt] at h
          exact ih _ _ _ _ h
        · rw [if_neg hlt] at h
          simp at h
    · rw [if_neg hr] at h
      simp at h

theorem generate_speech_success_spec (text output_dir : Str) (voice_preset : Option Str)
    (max_retries timestamp : Nat) (oracle : Nat → AttemptSpec) (fs0 : Fs) (p : Str)
    (h : (generate_speech text output_dir voice_preset max_retries timestamp oracle fs0).2 =
      .success p) :
    p = plainOutputPath output_dir timestamp ∧
    ∃ body,
      assocFind (generate_speech text output_dir voice_preset max_retries timestamp
          oracle fs0).1.fs (plainOutputPath output_dir timestamp) = some body ∧
      ∃ i, (oracle i).http = .resp 200 body ∧ (oracle i).write = .full := by
  have h' : generate_speech text output_dir voice_preset max_retries timestamp oracle fs0 =
      ((generate_speech text output_dir voice_preset max_retries timestamp oracle fs0).1,
        .success p) := by
    rw [← h]
  simp only [generate_speech] at h' ⊢
  exact genLoop_success_spec _ _ _ _ _ _ _ _ _ h'

theorem generate_speech_with_voice_success_path (store : Store) (text voice_name : Str)
    (output_dir : Str) (max_retries timestamp : Nat) (oracle : Nat → AttemptSpec) (fs0 : Fs)
    (p : Str)
    (h : (generate_speech_with_voice store text voice_name output_dir max_retries timestamp
      oracle fs0).2 = .success p) :
    p = clonedOutputPath output_dir voice_name timestamp := by
  have h' : generate_speech_with_voice store text voice_name output_dir max_retries timestamp
      oracle fs0 =
      ((generate_speech_with_voice store text voice_name output_dir max_retries timestamp
        oracle fs0).1, .success p) := by
    rw [← h]
  simp only [generate_speech_with_voice] at h'
  rcases hlook : assocFind store (voice_name ++ jsonExt) with _ | vm
  · rw [hlook] at h'
    exact absurd (congrArg Prod.snd h'.symm) (by simp)
  · rw [hlook] at h'
    exact (genLoop_success_spec _ _ _ _ _ _ _ _ _ h').1

theorem assocSet_map_fst {α : Type} (l : List (Str × α)) (k : Str) (v : α) :
    (assocSet l k v).map Prod.fst =
      if k ∈ l.map Prod.fst then l.map Prod.fst else l.map Prod.fst ++ [k] := by
  unfold assocSet
  by_cases h : l.any (fun e => e.1 = k)
  · have hmem : k ∈ l.map Prod.fst := by
      rcases List.any_eq_true.mp h with ⟨e, he, hk⟩
      exact List.mem_map.mpr ⟨e, he, by simpa using hk⟩
    rw [if_pos h, if_pos hmem, List.map_map]
    apply List.map_congr_left
    intro e _
    by_cases he : e.1 = k
    · simp [he]
    · simp [he]
  · have hmem : k ∉ l.map Prod.fst := by
      intro hk
      rcases List.mem_map.mp hk with ⟨e, he, hk⟩
      exact (List.any_eq_false.mp (Bool.eq_false_iff.mpr h) e he) (by simpa using hk)
    rw [if_neg h, if_neg hmem, List.map_append]
    rfl

theorem count_le_one_of_nodup {α : Type} [BEq α] [LawfulBEq α] (l : List α)
    (h : l.Nodup) (a : α) : l.count a ≤ 1 := by
  induction l with
  | nil => simp
  | cons b t ih =>
    rw [List.count_cons]
    rcases List.nodup_cons.mp h with ⟨hb, ht⟩
    by_cases hba : b == a
    · have ha : a ∉ t := by
        have : b = a := eq_of_beq hba
        subst this
        exact hb
      simp [List.count_eq_zero.mpr ha, hba]
    · have := ih ht
      simp only [Bool.not_eq_true] at hba
      simp [hba]
      omega

theorem assocSet_count_key {α : Type} (l : List (Str × α)) (k : Str) (v : α)
    (hnodup : (l.map Prod.fst).Nodup) :
    ((assocSet l k v).map Prod.fst).count k = 1 := by
  rw [assocSet_map_fst]
  by_cases hmem : k ∈ l.map Prod.fst
  · rw [if_pos hmem]
    have h1 : (l.map Prod.fst).count k ≤ 1 := count_le_one_of_nodup _ hnodup k
    have h2 : 0 < (l.map Prod.fst).count k := List.count_pos_iff.mpr hmem
    omega
  · rw [if_neg hmem, List.count_append]
    have h1 : (l.map Prod.fst).count k = 0 := List.count_eq_zero.mpr hmem
    simp [h1]

/-! ### Claims -/

/-- C1 counterexample: `SesameTTS.generate_speech` performs no empty-text
validation.  Called with empty text (and an endpoint answering 200), it
issues one POST to the transport and returns a success path — it does not
return a validation failure, and the transport is invoked once, not zero
times. -/
theorem C1_counterexample :
    (generate_speech [] "outputs".data none 3 0
      (fun _ => ⟨.resp 200 [7], .full⟩) []).1.posts.length = 1 ∧
    (generate_speech [] "outputs".data none 3 0
      (fun _ => ⟨.resp 200 [7], .full⟩) []).2 =
      .success ("outputs/output_0.wav".data) := by
  constructor
  · decide
  · decide

/-- C1 (amended): the empty-text rejection lives in the UI wrapper
`generate_speech` of src/app.py, not in `SesameTTS.generate_speech`: for
empty text the wrapper returns its validation message with zero transport
calls and an unchanged filesystem, never invoking the client. -/
theorem C1_empty_text_rejected_in_app_layer (voice_preset : Option Str)
    (max_retries timestamp : Nat) (oracle : Nat → AttemptSpec) (fs0 : Fs) :
    app_generate_speech [] voice_preset max_retries timestamp oracle fs0 =
      (⟨[], [], fs0⟩, .noText) := by
  simp [app_generate_speech]

/-- C2: when every attempt yields HTTP 503 or a network-level exception,
`generate_speech` performs exactly `max_retries` attempts (one POST each),
sleeps `2^1, 2^2, ..., 2^(max_retries-1)` time units between consecutive
attempts, and returns the service-unavailable failure result. -/
theorem C2_all_retryable_exhausts_retries (text output_dir : Str)
    (voice_preset : Option Str) (max_retries timestamp : Nat)
    (oracle : Nat → AttemptSpec) (fs0 : Fs)
    (hO : ∀ i, (∃ b, (oracle i).http = .resp 503 b) ∨ (oracle i).http = .exc) :
    (generate_speech text output_dir voice_preset max_retries timestamp oracle fs0).2 =
      .serviceUnavailable ∧
    (generate_speech text output_dir voice_preset max_retries timestamp
      oracle fs0).1.posts.length = max_retries ∧
    (generate_speech text output_dir voice_preset max_retries timestamp
      oracle fs0).1.sleeps = (List.range' 1 (max_retries - 1)).map (fun j => 2 ^ j) := by
  have hrw := genLoop_retry_all oracle
    { inputs := text
      params := match voice_preset with | some p => .preset p | none => .noParams }
    max_retries (plainOutputPath output_dir timestamp) hO max_retries 0 ⟨[], [], fs0⟩
    (by omega)
  refine ⟨?_, ?_, ?_⟩ <;> simp only [generate_speech] <;> rw [hrw] <;> simp

/-- C2 witness: with an endpoint answering 503 on every attempt and the
default `max_retries = 3`, the call makes 3 attempts, sleeps 2 then 4 time
units, and fails as service-unavailable. -/
theorem C2_witness :
    (generate_speech "hello".data "outputs".data none 3 100
      (fun _ => ⟨.resp 503 [], .full⟩) []).2 = .serviceUnavailable ∧
    (generate_speech "hello".data "outputs".data none 3 100
      (fun _ => ⟨.resp 503 [], .full⟩) []).1.posts.length = 3 ∧
    (generate_speech "hello".data "outputs".data none 3 100
      (fun _ => ⟨.resp 503 [], .full⟩) []).1.sleeps = [2, 4] := by
  have h := C2_all_retryable_exhausts_retries "hello".data "outputs".data none 3 100
    (fun _ => ⟨.resp 503 [], .full⟩) [] (fun _ => Or.inl ⟨[], rfl⟩)
  refine ⟨h.1, h.2.1, ?_⟩
  rw [h.2.2]
  decide

/-- C5: for non-empty text, if the first attempt answers HTTP 200 with body
`body` and the write completes, `generate_speech` returns the freshly
allocated timestamped path and that file holds exactly `body`. -/
theorem C5_success_writes_body_verbatim (text output_dir : Str)
    (voice_preset : Option Str) (max_retries timestamp : Nat)
    (oracle : Nat → AttemptSpec) (fs0 : Fs) (body : Bytes)
    (_htext : text ≠ [])
    (hm : 0 < max_retries)
    (hresp : (oracle 0).http = .resp 200 body)
    (hw : (oracle 0).write = .full) :
    (generate_speech text output_dir voice_preset max_retries timestamp oracle fs0).2 =
      .success (plainOutputPath output_dir timestamp) ∧
    assocFind (generate_speech text output_dir voice_preset max_retries timestamp
      oracle fs0).1.fs (plainOutputPath output_dir timestamp) = some body := by
  obtain ⟨k, rfl⟩ : ∃ k, max_retries = k + 1 := ⟨max_retries - 1, by omega⟩
  simp only [generate_speech]
  rw [genLoop, if_pos (by omega : 0 < k + 1)]
  simp only [hresp]
  rw [if_neg (by decide : ¬((200 : Nat) = 503)),
    if_neg (show ¬((200 : Nat) ≠ 200) by decide)]
  simp only [hw]
  exact ⟨by simp, assocFind_assocSet_self _ _ _⟩

/-- C5 witness: a 200 answer with body `[7, 8]` on non-empty text yields the
timestamped path whose stored content is `[7, 8]`. -/
theorem C5_witness :
    (generate_speech "hello".data "outputs".data none 3 100
      (fun _ => ⟨.resp 200 [7, 8], .full⟩) []).2 =
      .success (plainOutputPath "outputs".data 100) ∧
    assocFind (generate_speech "hello".data "outputs".data none 3 100
      (fun _ => ⟨.resp 200 [7, 8], .full⟩) []).1.fs
      (plainOutputPath "outputs".data 100) = some [7, 8] :=
  C5_success_writes_body_verbatim "hello".data "outputs".data none 3 100
    (fun _ => ⟨.resp 200 [7, 8], .full⟩) [] [7, 8] (by decide) (by omega) rfl rfl

/-- C6: a response whose status is neither 200 nor 503 on the first attempt
makes `generate_speech` return the request-rejected failure after exactly
one attempt: one POST, no backoff sleep, filesystem untouched. -/
theorem C6_non200_non503_rejected_immediately (text output_dir : Str)
    (voice_preset : Option Str) (max_retries timestamp : Nat)
    (oracle : Nat → AttemptSpec) (fs0 : Fs) (code : Nat) (body : Bytes)
    (hm : 0 < max_retries)
    (hresp : (oracle 0).http = .resp code body)
    (h503 : code ≠ 503) (h200 : code ≠ 200) :
    (generate_speech text output_dir voice_preset max_retries timestamp oracle fs0).2 =
      .requestRejected ∧
    (generate_speech text output_dir voice_preset max_retries timestamp
      oracle fs0).1.posts.length = 1 ∧
    (generate_speech text output_dir voice_preset max_retries timestamp
      oracle fs0).1.sleeps = [] ∧
    (generate_speech text output_dir voice_preset max_retries timestamp
      oracle fs0).1.fs = fs0 := by
  obtain ⟨k, rfl⟩ : ∃ k, max_retries = k + 1 := ⟨max_retries - 1, by omega⟩
  simp only [generate_speech]
  rw [genLoop, if_pos (by omega : 0 < k + 1)]
  simp only [hresp]
  rw [if_neg h503, if_pos h200]
  exact ⟨rfl, rfl, rfl, rfl⟩

/-- C6 witness: a 404 on the first attempt is rejected after a single
attempt with no sleep. -/
theorem C6_witness :
    (generate_speech "hello".data "outputs".data none 3 100
      (fun _ => ⟨.resp 404 [], .full⟩) []).2 = .requestRejected ∧
    (generate_speech "hello".data "outputs".data none 3 100
      (fun _ => ⟨.resp 404 [], .full⟩) []).1.posts.length = 1 ∧
    (generate_speech "hello".data "outputs".data none 3 100
      (fun _ => ⟨.resp 404 [], .full⟩) []).1.sleeps = [] ∧
    (generate_speech "hello".data "outputs".data none 3 100
      (fun _ => ⟨.resp 404 [], .full⟩) []).1.fs = [] :=
  C6_non200_non503_rejected_immediately "hello".data "outputs".data none 3 100
    (fun _ => ⟨.resp 404 [], .full⟩) [] 404 [] (by omega) rfl (by decide) (by decide)

/-- C3 counterexample: output filenames are derived from the whole-second
timestamp `int(time.time())` only, so two successful calls that observe the
same timestamp (same clock second) — here both with identical text — return
the very same artifact path: the second call overwrites the first. -/
theorem C3_counterexample :
    (generate_speech "hello".data "outputs".data none 3 100
      (fun _ => ⟨.resp 200 [7], .full⟩) []).2 =
      .success ("outputs/output_100.wav".data) ∧
    (generate_speech "hello".data "outputs".data none 3 100
      (fun _ => ⟨.resp 200 [8], .full⟩) []).2 =
      .success ("outputs/output_100.wav".data) := by
  constructor
  · decide
  · decide

/-- C3 (amended): two successful synthesis calls return distinct artifact
paths provided they observe distinct timestamps; this holds for plain calls
in the same output directory and for cloned-voice calls with the same
voice name.  (Calls within the same clock second collide, as the
counterexample shows.) -/
theorem C3_distinct_timestamps_distinct_paths
    (dir text1 text2 ctext1 ctext2 voice : Str) (vp1 vp2 : Option Str)
    (m1 m2 cm1 cm2 ts1 ts2 : Nat) (o1 o2 co1 co2 : Nat → AttemptSpec)
    (f1 f2 cf1 cf2 : Fs) (store1 store2 : Store) (p1 p2 q1 q2 : Str)
    (hts : ts1 ≠ ts2)
    (h1 : (generate_speech text1 dir vp1 m1 ts1 o1 f1).2 = .success p1)
    (h2 : (generate_speech text2 dir vp2 m2 ts2 o2 f2).2 = .success p2)
    (h3 : (generate_speech_with_voice store1 ctext1 voice dir cm1 ts1 co1 cf1).2 =
      .success q1)
    (h4 : (generate_speech_with_voice store2 ctext2 voice dir cm2 ts2 co2 cf2).2 =
      .success q2) :
    p1 ≠ p2 ∧ q1 ≠ q2 := by
  have e1 := (generate_speech_success_spec _ _ _ _ _ _ _ _ h1).1
  have e2 := (generate_speech_success_spec _ _ _ _ _ _ _ _ h2).1
  have e3 := generate_speech_with_voice_success_path _ _ _ _ _ _ _ _ _ h3
  have e4 := generate_speech_with_voice_success_path _ _ _ _ _ _ _ _ _ h4
  subst e1
  subst e2
  subst e3
  subst e4
  exact ⟨fun hc => hts (plainOutputPath_inj dir hc),
    fun hc => hts (clonedOutputPath_inj dir voice hc)⟩

/-- C3 witness: with timestamps 100 and 101, both plain and cloned-voice
successful calls produce distinct paths. -/
theorem C3_witness :
    "outputs/output_100.wav".data ≠ "outputs/output_101.wav".data ∧
    "outputs/output_v_100.wav".data ≠ "outputs/output_v_101.wav".data := by
  have h := C3_distinct_timestamps_distinct_paths
    "outputs".data "hello".data "hello".data "hi".data "hi".data "v".data none none
    3 3 3 3 100 101
    (fun _ => ⟨.resp 200 [7], .full⟩) (fun _ => ⟨.resp 200 [7], .full⟩)
    (fun _ => ⟨.resp 200 [7], .full⟩) (fun _ => ⟨.resp 200 [7], .full⟩)
    [] [] [] []
    [("v".data ++ jsonExt, ⟨"v".data, 0, "s".data, ⟨0, 0, 1⟩⟩)]
    [("v".data ++ jsonExt, ⟨"v".data, 0, "s".data, ⟨0, 0, 1⟩⟩)]
    "outputs/output_100.wav".data "outputs/output_101.wav".data
    "outputs/output_v_100.wav".data "outputs/output_v_101.wav".data
    (by omega) (by decide) (by decide) (by decide) (by decide)
  exact h

/-- C4 counterexample: the audio write is not all-or-nothing.  With every
attempt answering 200 with body `[1, 2, 3]` but the write raising after one
byte, the call fails (returns no reference), yet a truncated file holding
`[1]` — a strict proper prefix of the response body — remains on disk at
the allocated path: nothing deletes or renames it. -/
theorem C4_counterexample :
    (generate_speech "hi".data "outputs".data none 3 5
      (fun _ => ⟨.resp 200 [1, 2, 3], .failAt 1⟩) []).2 = .serviceUnavailable ∧
    assocFind (generate_speech "hi".data "outputs".data none 3 5
      (fun _ => ⟨.resp 200 [1, 2, 3], .failAt 1⟩) []).1.fs
      (plainOutputPath "outputs".data 5) = some [1] ∧
    ([1] : Bytes) ≠ [1, 2, 3] := by
  refine ⟨?_, ?_, ?_⟩
  · decide
  · decide
  · decide

/-- C4 (amended): on failure the caller receives no artifact reference (the
result carries no path), and any path that is returned always refers to a
file whose content is exactly the body of a fully written 200 response —
but the write is not atomic, so after a failure a truncated file may remain
on disk at the allocated path (see the counterexample). -/
theorem C4_success_reference_is_complete (text output_dir : Str)
    (voice_preset : Option Str) (max_retries timestamp : Nat)
    (oracle : Nat → AttemptSpec) (fs0 : Fs) (p : Str)
    (h : (generate_speech text output_dir voice_preset max_retries timestamp
      oracle fs0).2 = .success p) :
    ∃ body,
      assocFind (generate_speech text output_dir voice_preset max_retries timestamp
        oracle fs0).1.fs p = some body ∧
      ∃ i, (oracle i).http = .resp 200 body ∧ (oracle i).write = .full := by
  obtain ⟨hp, body, hfind, hi⟩ := generate_speech_success_spec _ _ _ _ _ _ _ _ h
  subst hp
  exact ⟨body, hfind, hi⟩

/-- C4 witness: a successful concrete call's returned path holds the
complete 200-response body. -/
theorem C4_witness :
    ∃ body,
      assocFind (generate_speech "hello".data "outputs".data none 3 100
        (fun _ => ⟨.resp 200 [7, 8], .full⟩) []).1.fs
        (plainOutputPath "outputs".data 100) = some body ∧
      ∃ i, ((fun (_ : Nat) => (⟨.resp 200 [7, 8], .full⟩ : AttemptSpec)) i).http =
        .resp 200 body ∧
        ((fun (_ : Nat) => (⟨.resp 200 [7, 8], .full⟩ : AttemptSpec)) i).write = .full :=
  C4_success_reference_is_complete "hello".data "outputs".data none 3 100
    (fun _ => ⟨.resp 200 [7, 8], .full⟩) [] (plainOutputPath "outputs".data 100)
    (by decide)

/-- C10: the retry loop's exception handler also covers the file write of a
200 response.  First conjunct: the first attempt answers 200 but the write
raises, and the call then issues a second, fresh POST (2 posts total, one
backoff sleep) before succeeding.  Second conjunct: when the write raises
on every attempt the loop re-runs up to `max_retries` times (3 POSTs, each
after an already-received 200) and then fails. -/
theorem C10_write_failure_triggers_new_post :
    ((generate_speech "hi".data "outputs".data none 3 5
        (fun i => if i = 0 then ⟨.resp 200 [9, 9], .failAt 1⟩
          else ⟨.resp 200 [9, 9], .full⟩) []).1.posts.length = 2 ∧
      (generate_speech "hi".data "outputs".data none 3 5
        (fun i => if i = 0 then ⟨.resp 200 [9, 9], .failAt 1⟩
          else ⟨.resp 200 [9, 9], .full⟩) []).2 =
        .success (plainOutputPath "outputs".data 5) ∧
      (generate_speech "hi".data "outputs".data none 3 5
        (fun i => if i = 0 then ⟨.resp 200 [9, 9], .failAt 1⟩
          else ⟨.resp 200 [9, 9], .full⟩) []).1.sleeps = [2]) ∧
    ((generate_speech "hi".data "outputs".data none 3 5
        (fun _ => ⟨.resp 200 [9, 9], .failAt 1⟩) []).1.posts.length = 3 ∧
      (generate_speech "hi".data "outputs".data none 3 5
        (fun _ => ⟨.resp 200 [9, 9], .failAt 1⟩) []).2 = .serviceUnavailable) := by
  refine ⟨⟨?_, ?_, ?_⟩, ?_, ?_⟩
  · decide
  · decide
  · decide
  · decide
  · decide

/-- C7: running `extract_voice` twice with the same name silently overwrites
the first profile with the second: both calls succeed, the resulting store
holds exactly one entry keyed by that name's filename, and the listing
gains exactly one entry for that profile (no duplicate). -/
theorem C7_extract_twice_overwrites (store : Store) (existing : List Str)
    (sample name : Str) (t1 t2 : Nat)
    (hs : sample ∈ existing)
    (hfresh : (name ++ jsonExt) ∉ store.map Prod.fst) :
    (extract_voice store existing sample name t1).2 = true ∧
    (extract_voice (extract_voice store existing sample name t1).1
      existing sample name t2).2 = true ∧
    ((extract_voice (extract_voice store existing sample name t1).1
      existing sample name t2).1.map Prod.fst).count (name ++ jsonExt) = 1 ∧
    list_available_voices (extract_voice (extract_voice store existing sample name t1).1
      existing sample name t2).1 =
      list_available_voices store ++ [replaceAll jsonExt [] (name ++ jsonExt)] := by
  have hext : ∀ (s : Store) (t : Nat),
      extract_voice s existing sample name t =
        (assocSet s (name ++ jsonExt) ⟨name, t, sample, ⟨0, 0, 1⟩⟩, true) := by
    intro s t
    simp only [extract_voice]
    rw [if_pos hs]
  have h1 : (extract_voice store existing sample name t1).1 =
      store ++ [(name ++ jsonExt, ⟨name, t1, sample, ⟨0, 0, 1⟩⟩)] := by
    rw [hext]
    exact assocSet_fresh _ _ _ hfresh
  have h2 : (extract_voice (extract_voice store existing sample name t1).1
      existing sample name t2).1 =
      store ++ [(name ++ jsonExt, ⟨name, t2, sample, ⟨0, 0, 1⟩⟩)] := by
    rw [hext, h1]
    exact assocSet_overwrite_last _ _ _ _ hfresh
  refine ⟨by rw [hext], by rw [hext], ?_, ?_⟩
  · rw [h2, List.map_append, List.count_append]
    have h0 : (store.map Prod.fst).count (name ++ jsonExt) = 0 :=
      List.count_eq_zero.mpr hfresh
    simp [h0]
  · rw [h2]
    simp only [list_available_voices, List.map_append, List.filter_append, List.map_append]
    congr 1
    simp [jsonExt_isSuffixOf_append]

/-- C7 witness: extracting "alice" twice over an empty store leaves exactly
one "alice" profile and the listing is exactly ["alice"]. -/
theorem C7_witness :
    (extract_voice [] ["s.wav".data] "s.wav".data "alice".data 0).2 = true ∧
    (extract_voice (extract_voice [] ["s.wav".data] "s.wav".data "alice".data 0).1
      ["s.wav".data] "s.wav".data "alice".data 1).2 = true ∧
    ((extract_voice (extract_voice [] ["s.wav".data] "s.wav".data "alice".data 0).1
      ["s.wav".data] "s.wav".data "alice".data 1).1.map Prod.fst).count
      ("alice".data ++ jsonExt) = 1 ∧
    list_available_voices
      (extract_voice (extract_voice [] ["s.wav".data] "s.wav".data "alice".data 0).1
        ["s.wav".data] "s.wav".data "alice".data 1).1 = ["alice".data] := by
  have h := C7_extract_twice_overwrites [] ["s.wav".data] "s.wav".data "alice".data 0 1
    (by decide) (by decide)
  refine ⟨h.1, h.2.1, h.2.2.1, ?_⟩
  rw [h.2.2.2]
  decide

/-- C8 counterexample: the listing applies `str.replace(".json", "")`, which
removes every occurrence of ".json", not only the filename extension.  A
profile created under the name "a.json" is persisted (its stored `name`
field is "a.json"), but the listing reports "a": the persisted profile's
name does not appear unchanged. -/
theorem C8_counterexample :
    list_available_voices
      (extract_voice [] ["s.wav".data] "s.wav".data "a.json".data 0).1 = ["a".data] ∧
    (extract_voice [] ["s.wav".data] "s.wav".data "a.json".data 0).1.map
      (fun e => e.2.name) = ["a.json".data] ∧
    "a.json".data ∉ list_available_voices
      (extract_voice [] ["s.wav".data] "s.wav".data "a.json".data 0).1 := by
  refine ⟨?_, ?_, ?_⟩
  · decide
  · decide
  · decide

/-- C8 (amended): for every on-disk store whose profile names do not contain
".json" as a substring, `list_available_voices` returns exactly the names
of the currently persisted profiles, unchanged and in store order; in
particular an empty store yields an empty list, not a failure.  (A name
containing ".json" is reported with every such occurrence removed, as the
counterexample shows.) -/
theorem C8_list_reflects_clean_store (store : Store) (names : List Str)
    (hkeys : store.map Prod.fst = names.map (fun n => n ++ jsonExt))
    (hclean : ∀ n ∈ names, ¬ jsonExt <:+: n) :
    list_available_voices store = names := by
  induction store generalizing names with
  | nil =>
    have h0 : names = [] := by
      cases names with
      | nil => rfl
      | cons n ns => simp at hkeys
    subst h0
    rfl
  | cons e t ih =>
    cases names with
    | nil => simp at hkeys
    | cons n ns =>
      simp only [List.map_cons, List.cons.injEq] at hkeys
      have hn : ¬ jsonExt <:+: n := hclean n (by simp)
      have ht := ih ns hkeys.2 (fun x hx => hclean x (by simp [hx]))
      simp only [list_available_voices] at ht ⊢
      rw [List.map_cons, hkeys.1,
        List.filter_cons_of_pos (jsonExt_isSuffixOf_append n),
        List.map_cons, replaceAll_strip n hn, ht]

/-- C8 witness: a store holding one profile named "alice" lists exactly
["alice"]. -/
theorem C8_witness :
    list_available_voices
      [("alice".data ++ jsonExt, ⟨"alice".data, 7, "s.wav".data, ⟨0, 0, 1⟩⟩)] =
      ["alice".data] :=
  C8_list_reflects_clean_store _ ["alice".data] rfl (by decide)

/-- C9: for an existing, readable audio sample and any name, `extract_voice`
succeeds and persists exactly one record keyed by that name, holding the
name, the numeric creation timestamp, the source sample reference, and the
neutral parameters pitch 0.0, timbre 0.0, pace 1.0. -/
theorem C9_extract_persists_profile (store : Store) (existing : List Str)
    (sample name : Str) (now : Nat)
    (hs : sample ∈ existing)
    (hnodup : (store.map Prod.fst).Nodup) :
    (extract_voice store existing sample name now).2 = true ∧
    assocFind (extract_voice store existing sample name now).1 (name ++ jsonExt) =
      some ⟨name, now, sample, ⟨0, 0, 1⟩⟩ ∧
    ((extract_voice store existing sample name now).1.map Prod.fst).count
      (name ++ jsonExt) = 1 := by
  have hext : extract_voice store existing sample name now =
      (assocSet store (name ++ jsonExt) ⟨name, now, sample, ⟨0, 0, 1⟩⟩, true) := by
    simp only [extract_voice]
    rw [if_pos hs]
  rw [hext]
  exact ⟨rfl, assocFind_assocSet_self _ _ _, assocSet_count_key _ _ _ hnodup⟩

/-- C9 witness: extracting "alice" from "s.wav" at time 7 persists the
expected record. -/
theorem C9_witness :
    (extract_voice [] ["s.wav".data] "s.wav".data "alice".data 7).2 = true ∧
    assocFind (extract_voice [] ["s.wav".data] "s.wav".data "alice".data 7).1
      ("alice".data ++ jsonExt) = some ⟨"alice".data, 7, "s.wav".data, ⟨0, 0, 1⟩⟩ ∧
    ((extract_voice [] ["s.wav".data] "s.wav".data "alice".data 7).1.map
      Prod.fst).count ("alice".data ++ jsonExt) = 1 :=
  C9_extract_persists_profile [] ["s.wav".data] "s.wav".data "alice".data 7
    (by decide) (by decide)

end Sesame
